import Mathlib

/-!
Shallow embedding of the `workflow` engine core (src/workflow.go, src/builder.go,
src/workflowpb/workflow.proto).

Statuses are integers (Go `StatusType` is an integer-valued generic parameter),
Go `time.Duration` fields are `Int` (int64 nanoseconds), and user-supplied
handler functions are represented by opaque type parameters, exactly as the Go
code treats them (it never inspects them, only stores and invokes them).
-/

/-- Process state enumeration, spec section 4.1: `{Unknown, Idle, Running, Shutdown}`.
`StateUnknown`, `StateIdle`, `StateRunning`, `StateShutdown` in the Go code. -/
inductive State where
  | unknown
  | idle
  | running
  | shutdown
deriving DecidableEq, Repr

/-- Event header keys typed as in Go (`map[Header]string`): the four constants used
by `update` in src/workflow.go lines 241-244. -/
inductive Header where
  | workflowForeignID
  | workflowName
  | topic
  | runID
deriving DecidableEq, Repr

instance : BEq Header := ⟨fun a b => decide (a = b)⟩

instance : LawfulBEq Header where
  eq_of_beq h := by simpa using of_decide_eq_true h
  rfl := by intro a; simp [BEq.beq]

/-- The wire record: fields of `WireRecord` used by `update` (src/workflow.go) and
declared in src/workflowpb/workflow.proto. -/
structure WireRecord where
  id : Int
  runID : String
  workflowName : String
  foreignID : String
  object : List Nat
  status : Int
  runState : Int
  createdAt : Int
  updatedAt : Int
deriving DecidableEq, Repr

/-- Modelled from the spec: the `Topic` function is not under src/ (only its call
site in `update` is). Spec section 6: topic naming is the exact string
`"<workflow_name>-<status_int>"`. -/
def Topic (workflowName : String) (statusInt : Int) : String :=
  workflowName ++ "-" ++ toString statusInt

/-- The producer `Send` call made by the publish continuation inside `update`,
together with the record as stored (the continuation mutates `wr.ID` in place). -/
structure SendCall where
  storedRecord : WireRecord
  topic : String
  key : Int
  status : Int
  headers : List (Header × String)
deriving DecidableEq, Repr

/-- Model of `update` (src/workflow.go lines 233-254): the store invokes the continuation
with the assigned sequence identifier; the continuation updates the record id,
builds the headers map in assignment order, and sends keyed by the updated id. -/
def update (wr : WireRecord) (assignedId : Int) : SendCall :=
  let wr' := { wr with id := assignedId }
  let topic := Topic wr'.workflowName wr'.status
  let headers : List (Header × String) :=
    [(Header.workflowForeignID, wr'.foreignID),
     (Header.workflowName, wr'.workflowName),
     (Header.topic, topic),
     (Header.runID, wr'.runID)]
  { storedRecord := wr'
    topic := topic
    key := wr'.id
    status := wr'.status
    headers := headers }

/-- Shard launch plan for one consumer config (src/workflow.go lines 100-112):
`ParallelCount < 2` launches a single `(1, 1)` consumer, otherwise consumers
`(i, ParallelCount)` for `i = 1 .. ParallelCount`. Pairs are (shard, totalShards). -/
def consumerShards (parallelCount : Int) : List (Int × Int) :=
  if parallelCount < 2 then [(1, 1)]
  else (List.range parallelCount.toNat).map
    (fun (i : Nat) => ((i : Int) + 1, parallelCount))

/-!
Role-leased processor loop, `Workflow.run` (src/workflow.go lines 146-203).
The loop's interactions with the outside world are modelled as an event trace.
The scheduler's and the process function's behaviour over the life of the loop
is a script: one `AwaitOutcome` per loop iteration, the script ending when the
root context is cancelled (the check at the top of the loop).
-/

/-- Result of one invocation of the process function: nil error, `context.Canceled`,
or any other error. -/
inductive ProcessResult where
  | ok
  | canceled
  | failure
deriving DecidableEq, Repr

/-- Outcome of one iteration of the role loop, as scripted by the environment:
`granted res ctxDoneFirst` means the scheduler granted the lease, the process
returned `res`, and (relevant only on `failure`) `ctxDoneFirst` tells which arm
of the backoff `select` fires first. `canceled` / `failed` are the error results
of `scheduler.Await` itself. -/
inductive AwaitOutcome where
  | granted (res : ProcessResult) (ctxDoneFirst : Bool)
  | canceled
  | failed
deriving DecidableEq, Repr

/-- Observable events of the role loop: state reports via `updateState`, lease
requests, process invocations, error-backoff sleeps, lease releases (`cancel()`),
and process-error metric increments. -/
inductive RunEvent where
  | setState (s : State)
  | awaitRole
  | callProcess
  | sleepBackoff
  | releaseLease
  | incMetric
deriving DecidableEq, Repr

/-- Events of the post-process part of one granted iteration
(src/workflow.go lines 179-202). -/
def processEvents : ProcessResult → Bool → List RunEvent
  | ProcessResult.canceled, _ => []
  | ProcessResult.ok, _ => [RunEvent.releaseLease]
  | ProcessResult.failure, true => [RunEvent.incMetric, RunEvent.releaseLease]
  | ProcessResult.failure, false =>
      [RunEvent.incMetric, RunEvent.sleepBackoff, RunEvent.releaseLease]

/-- Event trace of the `for` loop of `Workflow.run`: exhaustion of the script is
the root context being cancelled at the top-of-loop check; an `Await` returning
`context.Canceled` exits the loop; an `Await` error sleeps the backoff and
retries; a granted lease reports `Running`, runs the process and continues per
`processEvents`. -/
def loopTrace : List AwaitOutcome → List RunEvent
  | [] => []
  | AwaitOutcome.canceled :: _ => [RunEvent.awaitRole]
  | AwaitOutcome.failed :: rest =>
      RunEvent.awaitRole :: RunEvent.sleepBackoff :: loopTrace rest
  | AwaitOutcome.granted res d :: rest =>
      RunEvent.awaitRole :: RunEvent.setState State.running :: RunEvent.callProcess ::
        (processEvents res d ++ loopTrace rest)

/-- Full event trace of `Workflow.run`: `updateState(processName, StateIdle)` on
entry, the loop, and the deferred `updateState(processName, StateShutdown)` on
exit (src/workflow.go lines 147-148). -/
def runTrace (script : List AwaitOutcome) : List RunEvent :=
  RunEvent.setState State.idle :: (loopTrace script ++ [RunEvent.setState State.shutdown])

/-- Scans a trace tracking the most recently reported state (`start` before any
report); `true` iff every `awaitRole` happens while the last reported state is
`Idle`. -/
def idleBeforeAwaits (start : State) : List RunEvent → Bool
  | [] => true
  | RunEvent.setState s :: rest => idleBeforeAwaits s rest
  | RunEvent.awaitRole :: rest =>
      decide (start = State.idle) && idleBeforeAwaits start rest
  | _ :: rest => idleBeforeAwaits start rest

/-!
`Workflow.Stop` (src/workflow.go lines 207-231) and `Workflow.Run`
(src/workflow.go lines 92-143).
-/

/-- The count the `Stop` wait loop computes from one `States()` snapshot:
processes whose state is neither `StateUnknown` nor `StateShutdown`
(the `switch` at src/workflow.go lines 218-223). -/
def runningProcesses (snapshot : List (String × State)) : Nat :=
  snapshot.countP fun p =>
    match p.2 with
    | State.unknown => false
    | State.shutdown => false
    | _ => true

/-- Per-status consumer config as read by `Run`; only `ParallelCount` is
consulted there (src/workflow.go line 102). `consumer` stands for the opaque
user handler value. -/
structure ConsumerCfg (C : Type) where
  consumer : C
  parallelCount : Int
deriving DecidableEq, Repr

/-- A background processor launched by `Run` (src/workflow.go lines 100-141):
sharded consumers per status, the two timeout processors per status with
timeouts, and sharded connector consumers of both kinds (identified by their
position in the config slice). -/
inductive LaunchedProc where
  | consumer (status shard totalShards : Int)
  | timeoutPoller (status : Int)
  | timeoutInserter (status : Int)
  | workflowConnector (idx : Nat) (shard totalShards : Int)
  | connector (idx : Nat) (shard totalShards : Int)
deriving DecidableEq, Repr

/-- Runtime fields of `Workflow` touched by `Run` and `Stop`
(src/workflow.go lines 52-90): `ctx`/`cancel` are `nil` (`none`) until `Run`
fires, `onceDone` is the state of `sync.Once`, and contexts are named by `Nat`
identifiers. The consumer map is `map[Status][]consumerConfig`; of the timeout
and connector configs only what `Run` reads is kept (the statuses having
timeouts, and each connector's `parallelCount`). Zero values of the Go struct
are the defaults. -/
structure WorkflowRT (C : Type) where
  consumers : List (Int × List (ConsumerCfg C)) := []
  timeoutStatuses : List Int := []
  workflowConnectorParallel : List Int := []
  connectorParallel : List Int := []
  ctx : Option Nat := none
  cancel : Option Nat := none
  calledRun : Bool := false
  onceDone : Bool := false
deriving DecidableEq, Repr

/-- The processors the body of `once.Do` launches (src/workflow.go lines
100-141), in source order: sharded consumers, a timeout poller and a timeout
auto-inserter consumer per status with timeouts, then sharded workflow-connector
and connector consumers. -/
def launchAll {C : Type} (w : WorkflowRT C) : List LaunchedProc :=
  (w.consumers.flatMap fun sc =>
    sc.2.flatMap fun p =>
      (consumerShards p.parallelCount).map fun sn =>
        LaunchedProc.consumer sc.1 sn.1 sn.2) ++
  (w.timeoutStatuses.flatMap fun st =>
    [LaunchedProc.timeoutPoller st, LaunchedProc.timeoutInserter st]) ++
  (w.workflowConnectorParallel.enum.flatMap fun ip =>
    (consumerShards ip.2).map fun sn =>
      LaunchedProc.workflowConnector ip.1 sn.1 sn.2) ++
  (w.connectorParallel.enum.flatMap fun ip =>
    (consumerShards ip.2).map fun sn =>
      LaunchedProc.connector ip.1 sn.1 sn.2)

/-- Model of `Workflow.Run` (src/workflow.go lines 92-143): under `once.Do`, derive and
store the cancellable context, set `calledRun`, and launch the background
processors. Returns the new state and the processors launched by this call
(none when `once` has already fired). -/
def RunW {C : Type} (w : WorkflowRT C) (ctxId : Nat) : WorkflowRT C × List LaunchedProc :=
  if w.onceDone then (w, [])
  else
    ({ w with
        onceDone := true
        ctx := some ctxId
        cancel := some ctxId
        calledRun := true },
      launchAll w)

/-- A sequence of `Run` calls, threading the workflow state and collecting every
processor launched over the whole sequence. -/
def runMany {C : Type} (w : WorkflowRT C) : List Nat → WorkflowRT C × List LaunchedProc
  | [] => (w, [])
  | c :: cs =>
      let r := RunW w c
      let rest := runMany r.1 cs
      (rest.1, r.2 ++ rest.2)

/-- Observable behaviour of one `Stop` call. -/
structure StopResult where
  didCancel : Bool
  enteredWaitLoop : Bool
  returnedAt : Option Nat
deriving DecidableEq, Repr

/-- Index of the first `States()` snapshot at which the `Stop` wait loop's
`runningProcesses == 0` check holds, i.e. the read at which `Stop` returns. -/
def firstExit : List (List (String × State)) → Option Nat
  | [] => none
  | m :: rest =>
      if runningProcesses m == 0 then some 0
      else (firstExit rest).map (· + 1)

/-- Model of `Workflow.Stop` (src/workflow.go lines 207-231): if `cancel` is nil, return
at once; otherwise cancel the root context and spin on `States()` snapshots
until one has no running process. `snapshots` is the sequence of `States()`
reads the loop performs; `returnedAt` is the index of the snapshot at which the
loop returned (`none` if no offered snapshot lets it return). `Stop` writes no
field of the workflow, so the state it returns is the one it was given. -/
def StopW {C : Type} (w : WorkflowRT C) (snapshots : List (List (String × State))) :
    WorkflowRT C × StopResult :=
  if w.cancel = none then
    (w, { didCancel := false, enteredWaitLoop := false, returnedAt := none })
  else
    (w,
      { didCancel := true
        enteredWaitLoop := true
        returnedAt := firstExit snapshots })

/-!
Builder DSL (src/builder.go). Go maps keyed by status are modelled as
association lists with map semantics (`lookup` for reads, replace-or-append for
writes); `panic` is `Except.error` carrying the panic message. Handler values
(consumer functions, timer functions, timeout functions) are opaque type
parameters `C` and `T`.
-/

/-- Write `v` at key `k` with Go map assignment semantics: replace the existing
binding, else append a new one. -/
def assocPut {β : Type} (l : List (Int × β)) (k : Int) (v : β) : List (Int × β) :=
  if (l.lookup k).isSome then
    l.map fun p => if p.1 = k then (k, v) else p
  else l ++ [(k, v)]

/-- The `options` struct (consumer/timeout options accumulated by `WithOptions`);
duration fields are int64 nanoseconds. Zero value is the Go zero struct. -/
structure GoOptions where
  pollingFrequency : Int := 0
  parallelCount : Int := 0
  errBackOff : Int := 0
  lag : Int := 0
  lagAlert : Int := 0
  pauseAfterErrCount : Int := 0
deriving DecidableEq, Repr

/-- Folding a list of `Option` functional options over the zero `options` value,
as every `WithOptions` body does. -/
def applyOptions (opts : List (GoOptions → GoOptions)) : GoOptions :=
  opts.foldl (fun o f => f o) {}

/-- Per-status timeouts config (`timeouts[Type, Status]`): the registered
transitions plus the option fields set by `timeoutUpdater.WithOptions`
(src/builder.go lines 155-158). -/
structure TimeoutsCfg (T : Type) where
  transitions : List T := []
  pollingFrequency : Int := 0
  errBackOff : Int := 0
  lagAlert : Int := 0
  pauseAfterErrCount : Int := 0
deriving DecidableEq, Repr

/-- Builder-visible workflow state: the consumers map (one config per status,
src/builder.go line 30), the timeouts map, the status graph edges, and the
timeout store (set by `Build`, `none` until then). -/
structure BuilderState (C T : Type) where
  consumers : List (Int × C) := []
  timeouts : List (Int × TimeoutsCfg T) := []
  graphEdges : List (Int × Int) := []
  timeoutStore : Option Nat := none
deriving DecidableEq, Repr

/-- The panic message of a duplicate `AddStep` (src/builder.go line 55); the
quote characters of the Go literal are omitted here. -/
def dupStepMsg (from_ : Int) : String :=
  "AddStep(" ++ toString from_ ++ ",) already exists. Only one Step can be configured to consume the status"

/-- Model of `Builder.AddStep` (src/builder.go lines 49-72): panic if a step consumer for
`from_` exists, else record the graph transitions and bind the consumer. -/
def addStep {C T : Type} (b : BuilderState C T) (from_ : Int) (c : C)
    (allowedDestinations : List Int) : Except String (BuilderState C T) :=
  if (b.consumers.lookup from_).isSome then
    Except.error (dupStepMsg from_)
  else
    Except.ok
      { b with
          graphEdges := b.graphEdges ++ allowedDestinations.map fun to_ => (from_, to_)
          consumers := b.consumers ++ [(from_, c)] }

/-- A sequence of `AddStep` calls starting from `b`, stopping at the first
panic. -/
def addSteps {C T : Type} (b : BuilderState C T) :
    List (Int × C × List Int) → Except String (BuilderState C T)
  | [] => Except.ok b
  | s :: rest => do
      let b' ← addStep b s.1 s.2.1 s.2.2
      addSteps b' rest

/-- Model of `Builder.AddTimeout` (src/builder.go lines 108-132): read the (possibly
zero-valued) timeouts entry for `from_`, record graph transitions, append the
new transition and write the entry back. Never panics. -/
def addTimeout {C T : Type} (b : BuilderState C T) (from_ : Int) (t : T)
    (allowedDestinations : List Int) : BuilderState C T :=
  let cfg := (b.timeouts.lookup from_).getD {}
  { b with
      graphEdges := b.graphEdges ++ allowedDestinations.map fun to_ => (from_, to_)
      timeouts := assocPut b.timeouts from_ { cfg with transitions := cfg.transitions ++ [t] } }

/-- Model of `timeoutUpdater.WithOptions` (src/builder.go lines 139-160): accumulate the
options, panic on a non-zero `parallelCount` or `lag`, else copy the option
fields into the timeouts entry for `from_`. -/
def timeoutWithOptions {C T : Type} (b : BuilderState C T) (from_ : Int)
    (opts : List (GoOptions → GoOptions)) : Except String (BuilderState C T) :=
  let cfg := (b.timeouts.lookup from_).getD {}
  let o := applyOptions opts
  if o.parallelCount ≠ 0 then
    Except.error "Cannot configure parallel timeout"
  else if o.lag ≠ 0 then
    Except.error "Cannot configure lag for timeout"
  else
    Except.ok
      { b with
          timeouts := assocPut b.timeouts from_
            { cfg with
                pollingFrequency := o.pollingFrequency
                errBackOff := o.errBackOff
                lagAlert := o.lagAlert
                pauseAfterErrCount := o.pauseAfterErrCount } }

/-- The build options accumulated by `Build`; only `timeoutStore` matters for
the timeout-store check (src/builder.go lines 248-250); a store is named by a
`Nat` identifier as it is an opaque interface value in Go. -/
structure GoBuildOptions where
  timeoutStore : Option Nat := none
deriving DecidableEq, Repr

/-- Model of `WithTimeoutStore` (src/builder.go lines 280-284). -/
def WithTimeoutStore (s : Nat) : GoBuildOptions → GoBuildOptions :=
  fun bo => { bo with timeoutStore := some s }

/-- Model of `defaultBuildOptions` (src/builder.go lines 266-272): no timeout store. -/
def defaultBuildOptions : GoBuildOptions := {}

/-- Folding the `BuildOption` list over the defaults (src/builder.go lines
225-228). -/
def applyBuildOptions (opts : List (GoBuildOptions → GoBuildOptions)) : GoBuildOptions :=
  opts.foldl (fun o f => f o) defaultBuildOptions

/-- Model of `Builder.Build` (src/builder.go lines 215-253): apply the build options,
copy the timeout store onto the workflow, and panic when timeouts are
configured without a timeout store. -/
def build {C T : Type} (b : BuilderState C T)
    (opts : List (GoBuildOptions → GoBuildOptions)) : Except String (BuilderState C T) :=
  let bo := applyBuildOptions opts
  let w := { b with timeoutStore := bo.timeoutStore }
  if w.timeouts.length > 0 ∧ w.timeoutStore = none then
    Except.error "cannot configure timeouts without providing TimeoutStore for workflow"
  else
    Except.ok w

/-!
Helper lemmas.
-/

theorem getLast_cons_append_single {α : Type} (x a : α) (l : List α) :
    (x :: (l ++ [a])).getLast? = some a := by
  induction l generalizing x with
  | nil => rfl
  | cons y ys ih => exact ih y

theorem idle_not_in_processEvents (res : ProcessResult) (d : Bool) :
    RunEvent.setState State.idle ∉ processEvents res d := by
  cases res <;> cases d <;> decide

theorem idle_not_in_loopTrace (script : List AwaitOutcome) :
    RunEvent.setState State.idle ∉ loopTrace script := by
  induction script with
  | nil => simp [loopTrace]
  | cons o os ih =>
    cases o with
    | canceled => simp [loopTrace]
    | failed => simp [loopTrace, ih]
    | granted res d =>
      simp only [loopTrace, List.mem_cons, List.mem_append]
      push_neg
      exact ⟨by decide, by decide, by decide,
        idle_not_in_processEvents res d, ih⟩

theorem firstExit_get {l : List (List (String × State))} {i : Nat}
    {m : List (String × State)} (hfind : firstExit l = some i)
    (hget : l.get? i = some m) : runningProcesses m = 0 := by
  induction l generalizing i with
  | nil => simp [firstExit] at hfind
  | cons m0 rest ih =>
    by_cases h0 : runningProcesses m0 == 0
    · simp only [firstExit, h0, if_pos] at hfind
      obtain rfl : i = 0 := by simpa using hfind.symm
      obtain rfl : m0 = m := by simpa using hget
      simpa using h0
    · simp only [firstExit, h0, if_neg, Bool.false_eq_true, not_false_iff,
        Option.map_eq_some'] at hfind
      obtain ⟨j, hj, rfl⟩ := hfind
      exact ih hj (by simpa using hget)

theorem RunW_onceDone {C : Type} (w : WorkflowRT C) (c : Nat) :
    (RunW w c).1.onceDone = true := by
  by_cases h : w.onceDone <;> simp [RunW, h]

theorem runMany_of_onceDone {C : Type} (w : WorkflowRT C) (h : w.onceDone = true)
    (cs : List Nat) : runMany w cs = (w, []) := by
  induction cs with
  | nil => rfl
  | cons c cs ih => simp [runMany, RunW, h, ih]

theorem lookup_none_not_mem {β : Type} (l : List (Int × β)) (k : Int)
    (h : l.lookup k = none) : k ∉ l.map Prod.fst := by
  induction l with
  | nil => simp
  | cons p rest ih =>
    simp only [List.lookup] at h
    by_cases hk : k == p.1
    · simp [hk] at h
    · simp only [hk, Bool.false_eq_true, if_neg, not_false_iff] at h
      simp only [List.map_cons, List.mem_cons]
      push_neg
      exact ⟨by simpa using hk, ih h⟩

theorem addSteps_nodup {C T : Type} (steps : List (Int × C × List Int)) :
    ∀ (b b' : BuilderState C T), (b.consumers.map Prod.fst).Nodup →
      addSteps b steps = Except.ok b' → (b'.consumers.map Prod.fst).Nodup := by
  induction steps with
  | nil =>
    intro b b' hnd h
    obtain rfl : b = b' := by simpa [addSteps] using h
    exact hnd
  | cons s rest ih =>
    intro b b' hnd h
    simp only [addSteps] at h
    by_cases hex : (b.consumers.lookup s.1).isSome
    · simp [addStep, hex, Bind.bind, Except.bind] at h
    · rw [show addStep b s.1 s.2.1 s.2.2 = Except.ok
          { b with
              graphEdges := b.graphEdges ++ s.2.2.map fun to_ => (s.1, to_)
              consumers := b.consumers ++ [(s.1, s.2.1)] } by
            simp [addStep, hex]] at h
      refine ih _ b' ?_ h
      have hnm : s.1 ∉ b.consumers.map Prod.fst :=
        lookup_none_not_mem _ _ (by
          cases hcase : b.consumers.lookup s.1 with
          | none => rfl
          | some v => rw [hcase] at hex; simp at hex)
      simp only [List.map_append, List.map_cons, List.map_nil]
      rw [List.nodup_append]
      refine ⟨hnd, by simp, ?_⟩
      intro a ha hb
      simp only [List.mem_cons, List.not_mem_nil, or_false] at hb
      exact hnm (hb ▸ ha)

/-!
Claim theorems.
-/

/-- C4: For every record write through the store facade, the publish
continuation sets the record's ID to the store-assigned sequence identifier,
uses that identifier as the event key of the `Send` call, and attaches exactly
the four headers workflow-foreign-id, workflow-name, topic, and run-id,
populated from the written record. -/
theorem update_publishes_assigned_id_and_exact_headers
    (wr : WireRecord) (assignedId : Int) :
    (update wr assignedId).storedRecord = { wr with id := assignedId } ∧
    (update wr assignedId).key = assignedId ∧
    (update wr assignedId).headers.lookup Header.workflowForeignID = some wr.foreignID ∧
    (update wr assignedId).headers.lookup Header.workflowName = some wr.workflowName ∧
    (update wr assignedId).headers.lookup Header.topic =
      some (Topic wr.workflowName wr.status) ∧
    (update wr assignedId).headers.lookup Header.runID = some wr.runID ∧
    (update wr assignedId).headers.map Prod.fst =
      [Header.workflowForeignID, Header.workflowName, Header.topic, Header.runID] :=
  ⟨rfl, rfl, rfl, rfl, rfl, rfl, rfl⟩

/-- C5: For every consumer configuration with `parallelCount = N`, `N ≥ 2`, `Run`
launches exactly `N` consumer processors carrying shard indices `1` through `N`
(each with total shard count `N`); for `parallelCount < 2` it launches exactly
one consumer processor with shard index `1` of `1`. -/
theorem run_launches_parallel_shards (N : Int) :
    (2 ≤ N →
      (consumerShards N).length = N.toNat ∧
      ∀ i n : Int, ((i, n) ∈ consumerShards N ↔ (1 ≤ i ∧ i ≤ N ∧ n = N))) ∧
    (N < 2 → consumerShards N = [(1, 1)]) ∧
    (∀ {C : Type} (st : Int) (cfg : ConsumerCfg C),
      launchAll { consumers := [(st, [cfg])] } =
        (consumerShards cfg.parallelCount).map fun sn =>
          LaunchedProc.consumer st sn.1 sn.2) := by
  refine ⟨?_, ?_, ?_⟩
  · intro h
    have hn : ¬ N < 2 := by omega
    have heq : consumerShards N =
        (List.range N.toNat).map (fun (k : Nat) => ((k : Int) + 1, N)) := by
      unfold consumerShards
      rw [if_neg hn]
    constructor
    · rw [heq, List.length_map, List.length_range]
    · intro i n
      rw [heq, List.mem_map]
      constructor
      · rintro ⟨k, hk, hpair⟩
        rw [List.mem_range] at hk
        have hi : (k : Int) + 1 = i := congrArg Prod.fst hpair
        have hn2 : N = n := congrArg Prod.snd hpair
        omega
      · rintro ⟨h1, h2, h3⟩
        refine ⟨(i - 1).toNat, ?_, ?_⟩
        · rw [List.mem_range]
          omega
        · rw [Prod.mk.injEq]
          exact ⟨by omega, h3.symm⟩
  · intro h
    unfold consumerShards
    rw [if_pos h]
  · intro C st cfg
    simp [launchAll, List.flatMap_cons, List.flatMap_nil, List.append_nil, List.enum]

theorem run_launches_parallel_shards_witness :
    ((consumerShards 3).length = (3 : Int).toNat ∧
      (((2 : Int), (3 : Int)) ∈ consumerShards 3 ↔
        (1 ≤ (2 : Int) ∧ (2 : Int) ≤ 3 ∧ (3 : Int) = 3))) ∧
    consumerShards 1 = [(1, 1)] := by
  have h3 := run_launches_parallel_shards 3
  have h1 := run_launches_parallel_shards 1
  exact ⟨⟨(h3.1 (by decide)).1, (h3.1 (by decide)).2 2 3⟩, h1.2.1 (by decide)⟩

/-- C2: In the role-leased processor loop, whenever the process function
returns a nil error, the loop releases the lease (cancels the leased context)
and immediately re-requests the role, without sleeping the error backoff and
without incrementing the process-error metric. -/
theorem clean_completion_releases_and_rerequests
    (d : Bool) (rest : List AwaitOutcome) :
    loopTrace (AwaitOutcome.granted ProcessResult.ok d :: rest) =
      RunEvent.awaitRole :: RunEvent.setState State.running :: RunEvent.callProcess ::
        RunEvent.releaseLease :: loopTrace rest ∧
    RunEvent.sleepBackoff ∉ [RunEvent.awaitRole, RunEvent.setState State.running,
        RunEvent.callProcess, RunEvent.releaseLease] ∧
    RunEvent.incMetric ∉ [RunEvent.awaitRole, RunEvent.setState State.running,
        RunEvent.callProcess, RunEvent.releaseLease] ∧
    ∀ (o : AwaitOutcome) (os : List AwaitOutcome),
      (loopTrace (o :: os)).head? = some RunEvent.awaitRole := by
  refine ⟨rfl, by decide, by decide, ?_⟩
  intro o os
  cases o <;> rfl

/-- C3, counterexample: it is not the case that every iteration of the loop
body reports `Idle` before requesting a lease. After a granted lease whose
process returns nil, the loop re-requests the role while the last reported
state is still `Running`: the scripted trace below fails the check. -/
theorem idle_each_iteration_cex :
    idleBeforeAwaits State.unknown
      (runTrace [AwaitOutcome.granted ProcessResult.ok false,
                 AwaitOutcome.granted ProcessResult.ok false]) = false := by
  decide

/-- C3, amended: the loop reports `Idle` exactly once, on entry before the
first lease request (never again inside the loop), and when the root context
is cancelled it reports `Shutdown` and exits, `Shutdown` being the last state
reported. -/
theorem idle_once_then_shutdown_last (script : List AwaitOutcome) :
    (runTrace script).head? = some (RunEvent.setState State.idle) ∧
    (runTrace script).getLast? = some (RunEvent.setState State.shutdown) ∧
    RunEvent.setState State.idle ∉ loopTrace script := by
  refine ⟨rfl, ?_, idle_not_in_loopTrace script⟩
  exact getLast_cons_append_single _ _ _

/-- C1: `Stop` cancels the workflow's root context and then blocks until every
tracked background process reports state `Shutdown`: for every reachable state
map (entries are only ever written by `updateState` with `Idle`, `Running` or
`Shutdown`, never `Unknown`), if the wait loop of `Stop` returns at a snapshot
then the root context was cancelled and every process in that snapshot is in
state `Shutdown`. -/
theorem stop_returns_only_when_all_shutdown {C : Type} (w : WorkflowRT C)
    (snapshots : List (List (String × State))) (i : Nat)
    (m : List (String × State))
    (hret : (StopW w snapshots).2.returnedAt = some i)
    (hsnap : snapshots.get? i = some m)
    (hreach : ∀ s ∈ m.map Prod.snd, s ≠ State.unknown) :
    (StopW w snapshots).2.didCancel = true ∧
    ∀ s ∈ m.map Prod.snd, s = State.shutdown := by
  by_cases hc : w.cancel = none
  · simp [StopW, hc] at hret
  constructor
  · simp [StopW, hc]
  · rw [show (StopW w snapshots).2.returnedAt = firstExit snapshots by
        simp [StopW, hc]] at hret
    have hzero : runningProcesses m = 0 := firstExit_get hret hsnap
    rw [runningProcesses, List.countP_eq_zero] at hzero
    intro s hs
    rw [List.mem_map] at hs
    obtain ⟨p, hp, rfl⟩ := hs
    have hnotrun := hzero p hp
    have hne := hreach p.2 (by rw [List.mem_map]; exact ⟨p, hp, rfl⟩)
    cases hcase : p.2 with
    | unknown => exact absurd hcase hne
    | shutdown => rfl
    | idle => rw [hcase] at hnotrun; simp at hnotrun
    | running => rw [hcase] at hnotrun; simp at hnotrun

theorem stop_returns_only_when_all_shutdown_witness :
    (StopW (C := Unit) { cancel := some 0 }
      [[("a", State.running)], [("a", State.shutdown)]]).2.didCancel = true ∧
    ∀ s ∈ ([("a", State.shutdown)] : List (String × State)).map Prod.snd,
      s = State.shutdown :=
  stop_returns_only_when_all_shutdown _ _ 1 _ (by decide) (by decide) (by decide)

/-- C9: `Run` is idempotent: any sequence of `Run` calls after the first leaves
the workflow state exactly as the first call set it and launches no further
processor, so the background processors are launched exactly once, by the
first call. -/
theorem run_idempotent {C : Type} (w : WorkflowRT C) (c : Nat) (cs : List Nat) :
    runMany w (c :: cs) = RunW w c := by
  have hdone := RunW_onceDone w c
  have hrest := runMany_of_onceDone (RunW w c).1 hdone cs
  simp [runMany, hrest]

/-- C10: calling `Stop` before `Run` has ever been called returns immediately
without panicking and without changing any workflow state: when the cancel
function is nil, `Stop` performs no cancellation and does not enter the wait
loop. -/
theorem stop_before_run_noop {C : Type} (w : WorkflowRT C)
    (snapshots : List (List (String × State))) (h : w.cancel = none) :
    StopW w snapshots =
      (w, { didCancel := false, enteredWaitLoop := false, returnedAt := none }) := by
  simp [StopW, h]

theorem stop_before_run_noop_witness :
    StopW (C := Unit) { consumers := [(1, [{ consumer := (), parallelCount := 3 }])] }
        [[("a", State.running)]] =
      ({ consumers := [(1, [{ consumer := (), parallelCount := 3 }])] },
        { didCancel := false, enteredWaitLoop := false, returnedAt := none }) :=
  stop_before_run_noop _ _ rfl

/-- C6: the builder enforces at most one step consumer per status: a second
`AddStep` call for a status that already has one panics, and every sequence of
`AddStep` calls that builds without panicking yields a consumers map whose
statuses are pairwise distinct, i.e. each status has at most one step
function. -/
theorem addStep_one_step_per_status {C T : Type} :
    (∀ (b : BuilderState C T) (from_ : Int) (c : C) (dests : List Int),
      (b.consumers.lookup from_).isSome = true →
        addStep b from_ c dests = Except.error (dupStepMsg from_)) ∧
    (∀ (steps : List (Int × C × List Int)) (b' : BuilderState C T),
      addSteps {} steps = Except.ok b' → (b'.consumers.map Prod.fst).Nodup) := by
  constructor
  · intro b from_ c dests h
    simp [addStep, h]
  · intro steps b' h
    exact addSteps_nodup steps {} b' (by simp) h

theorem addStep_one_step_per_status_witness :
    addStep (C := Nat) (T := Nat) { consumers := [(1, 5)] } 1 6 [] =
      Except.error (dupStepMsg 1) ∧
    (([(1, 5), (2, 6)] : List (Int × Nat)).map Prod.fst).Nodup :=
  ⟨(addStep_one_step_per_status (C := Nat) (T := Nat)).1
      { consumers := [(1, 5)] } 1 6 [] (by decide),
    (addStep_one_step_per_status (C := Nat) (T := Nat)).2
      [(1, 5, []), (2, 6, [])]
      { consumers := [(1, 5), (2, 6)], graphEdges := [] } (by rfl)⟩

/-- C7: configuring a timeout with a non-zero `parallelCount` or a non-zero
`lag` option is rejected at build time: if the accumulated options set either,
`timeoutUpdater.WithOptions` panics (with the `parallelCount` message taking
precedence) and, the panic being raised before the map write, the timeout
configuration is not updated. -/
theorem timeout_options_reject_parallel_and_lag {C T : Type}
    (b : BuilderState C T) (from_ : Int) (opts : List (GoOptions → GoOptions))
    (h : (applyOptions opts).parallelCount ≠ 0 ∨ (applyOptions opts).lag ≠ 0) :
    timeoutWithOptions b from_ opts =
      Except.error (if (applyOptions opts).parallelCount ≠ 0
        then "Cannot configure parallel timeout"
        else "Cannot configure lag for timeout") := by
  unfold timeoutWithOptions
  by_cases hp : (applyOptions opts).parallelCount ≠ 0
  · simp [hp]
  · have hl : (applyOptions opts).lag ≠ 0 := h.resolve_left hp
    simp [hp, hl]

theorem timeout_options_reject_parallel_and_lag_witness :
    timeoutWithOptions (C := Nat) (T := Nat) {} 1
        [fun o => { o with parallelCount := 3 }] =
      Except.error "Cannot configure parallel timeout" := by
  have h := timeout_options_reject_parallel_and_lag (C := Nat) (T := Nat) {} 1
    [fun o => { o with parallelCount := 3 }] (Or.inl (by decide))
  rw [h]
  rfl

/-- C8: `Build` panics exactly when at least one timeout has been configured
but the accumulated build options (via `WithTimeoutStore` or otherwise) supply
no timeout store; with an empty timeout map or a supplied store it returns the
workflow without panicking on this check. -/
theorem build_requires_timeout_store {C T : Type} (b : BuilderState C T)
    (opts : List (GoBuildOptions → GoBuildOptions)) :
    ((∃ msg, build b opts = Except.error msg) ↔
      (b.timeouts ≠ [] ∧ (applyBuildOptions opts).timeoutStore = none)) ∧
    ∀ (bo : GoBuildOptions) (s : Nat), (WithTimeoutStore s bo).timeoutStore = some s := by
  refine ⟨?_, fun bo s => rfl⟩
  unfold build
  by_cases hcond : b.timeouts.length > 0 ∧ (applyBuildOptions opts).timeoutStore = none
  · rw [if_pos hcond]
    constructor
    · intro _
      exact ⟨List.length_pos.mp hcond.1, hcond.2⟩
    · intro _
      exact ⟨_, rfl⟩
  · rw [if_neg hcond]
    constructor
    · rintro ⟨msg, hmsg⟩
      exact absurd hmsg (by simp)
    · rintro ⟨hne, hnone⟩
      exact absurd ⟨List.length_pos.mpr hne, hnone⟩ hcond
